import Mathlib

/-!
Formal model of the Amply carbon-credit contract (CCtoken, Solidity 0.8).

The contract state is embedded as a Lean structure; every public function
of the contract becomes a Lean function returning `Except Err CCState`
(plus return values where the Solidity function returns one).  Solidity
0.8 checked arithmetic is modelled by explicit bound checks against
2 ^ 256 that fail with `Err.Overflow` / `Err.Underflow` (the panic
reverts), and a reverted call leaves the pre-call state in force, which
the `step` wrapper encodes.  Balances are an association list so that the
sum of all balances is definable; mappings that are only read pointwise
are plain functions.
-/

namespace CCtoken

/-- Account addresses, with `0` the zero address. -/
abbrev Addr := Nat

/-- Exclusive upper bound of `uint256`. -/
def MAXU : Nat := 2 ^ 256

/-- Fixed-point unit of the credit token (18 decimals), the literal `1e18`. -/
def SCALE : Nat := 10 ^ 18

/-- Failure kinds: one constructor per distinct `require` / revert in the
contract and in the inherited OpenZeppelin ERC20 code, plus the two
arithmetic panics of Solidity 0.8. -/
inductive Err where
  | NotOwner
  | DeviceNotRegistered
  | InvalidAmount
  | DuplicateAttestation
  | NoAttestation
  | ClaimExceedsAttested
  | BelowMintingThreshold
  | DivByZero
  | Overflow
  | Underflow
  | PriceBelowFloor
  | InsufficientBalance
  | InsufficientAllowance
  | InvalidOrderId
  | OrderAlreadyFulfilled
  | InvalidPurchaseAmount
  | IncorrectPayment
  | SellerUnderfunded
  | PaymentFailed
  | EmptyBatch
  | LengthMismatch
  | PriceMismatch
  | ReasonRequired
  | InvalidRecipient
  | ERC20InvalidSender
  | ERC20InvalidReceiver
  | ERC20InvalidSpender
  | ERC20InsufficientBalance
deriving Repr, DecidableEq

/-- The `SellOrder` struct of the contract. -/
structure SellOrder where
  seller : Addr
  amount : Nat
  pricePerToken : Nat
  fulfilled : Bool
deriving Repr, DecidableEq

/-- Lookup in an association-list balance table; a missing key reads as
`0`, like a Solidity mapping. -/
def bget : List (Addr × Nat) → Addr → Nat
  | [], _ => 0
  | (k, w) :: t, a => if k = a then w else bget t a

/-- Write to an association-list balance table (replace the first binding
of the key, or append a fresh one). -/
def bset : List (Addr × Nat) → Addr → Nat → List (Addr × Nat)
  | [], a, v => [(a, v)]
  | (k, w) :: t, a, v => if k = a then (a, v) :: t else (k, w) :: bset t a v

/-- Sum of all balances in the table. -/
def bsum : List (Addr × Nat) → Nat
  | [] => 0
  | (_, w) :: t => w + bsum t

/-- Full contract state.  `totalMinted` / `totalBurned` are ghost
accumulators recording cumulative mint and burn volume; the contract
itself only stores their difference (`totalSupply`).  `canReceive`
models which addresses accept a plain value transfer (the low-level
`call` in payment forwarding succeeds iff it holds). -/
structure CCState where
  owner : Addr
  contractAddr : Addr
  ENERGY_TO_CREDIT_CONVERSION : Nat
  GovtWallet : Addr
  FloorPricePerToken : Nat
  registeredDevices : Addr → Bool
  smartMeterData : Addr → Nat → Nat
  sellOrders : List SellOrder
  balances : List (Addr × Nat)
  allowances : Addr → Addr → Nat
  totalSupply : Nat
  canReceive : Addr → Bool
  totalMinted : Nat
  totalBurned : Nat

/-- `balanceOf` of the ERC20 ledger. -/
def balanceOf (s : CCState) (a : Addr) : Nat := bget s.balances a

/-- Credit half of OpenZeppelin `_update`: add `value` to `dst`, or burn
it from supply when `dst` is the zero address.  Total-supply decrement is
unchecked in the library (it cannot underflow there). -/
def erc20UpdateTo (s : CCState) (dst : Addr) (value : Nat) : CCState :=
  if dst = 0 then
    { s with totalSupply := s.totalSupply - value
             totalBurned := s.totalBurned + value }
  else
    { s with balances := bset s.balances dst (bget s.balances dst + value) }

/-- OpenZeppelin `ERC20._update(src, dst, value)`: mint when `src = 0`
(checked supply increment), otherwise debit `src` after the balance
check; then credit via `erc20UpdateTo`. -/
def erc20Update (s : CCState) (src dst : Addr) (value : Nat) : Except Err CCState :=
  if src = 0 then
    if s.totalSupply + value < MAXU then
      .ok (erc20UpdateTo
        { s with totalSupply := s.totalSupply + value
                 totalMinted := s.totalMinted + value } dst value)
    else .error .Overflow
  else
    if bget s.balances src < value then .error .ERC20InsufficientBalance
    else .ok (erc20UpdateTo
      { s with balances := bset s.balances src (bget s.balances src - value) } dst value)

/-- OpenZeppelin `ERC20._mint`. -/
def erc20Mint (s : CCState) (dst : Addr) (value : Nat) : Except Err CCState :=
  if dst = 0 then .error .ERC20InvalidReceiver
  else erc20Update s 0 dst value

/-- OpenZeppelin `ERC20._burn`. -/
def erc20Burn (s : CCState) (src : Addr) (value : Nat) : Except Err CCState :=
  if src = 0 then .error .ERC20InvalidSender
  else erc20Update s src 0 value

/-- OpenZeppelin `ERC20._transfer`. -/
def erc20TransferInternal (s : CCState) (src dst : Addr) (value : Nat) :
    Except Err CCState :=
  if src = 0 then .error .ERC20InvalidSender
  else if dst = 0 then .error .ERC20InvalidReceiver
  else erc20Update s src dst value

/-- Public ERC20 `transfer` (the caller is the source). -/
def transfer (s : CCState) (sender dst : Addr) (value : Nat) : Except Err CCState :=
  erc20TransferInternal s sender dst value

/-- Public ERC20 `approve` (the caller is the token owner granting the
allowance). -/
def approve (s : CCState) (sender spender : Addr) (value : Nat) : Except Err CCState :=
  if sender = 0 then .error .ERC20InvalidSender
  else if spender = 0 then .error .ERC20InvalidSpender
  else .ok { s with allowances := fun o sp =>
    if o = sender ∧ sp = spender then value else s.allowances o sp }

/-- Contract `registerDevice` (owner only). -/
def registerDevice (s : CCState) (sender device : Addr) : Except Err CCState :=
  if sender = s.owner then
    .ok { s with registeredDevices := fun d =>
      if d = device then true else s.registeredDevices d }
  else .error .NotOwner

/-- Contract `deregisterDevice` (owner only). -/
def deregisterDevice (s : CCState) (sender device : Addr) : Except Err CCState :=
  if sender = s.owner then
    .ok { s with registeredDevices := fun d =>
      if d = device then false else s.registeredDevices d }
  else .error .NotOwner

/-- Contract function updating ENERGY_TO_CREDIT_CONVERSION (owner only). -/
def changeEnergyToCreditRate (s : CCState) (sender : Addr) (newRate : Nat) :
    Except Err CCState :=
  if sender = s.owner then
    .ok { s with ENERGY_TO_CREDIT_CONVERSION := newRate }
  else .error .NotOwner

/-- Contract `changeGovtWallet` (owner only). -/
def changeGovtWallet (s : CCState) (sender : Addr) (newAddress : Addr) :
    Except Err CCState :=
  if sender = s.owner then
    .ok { s with GovtWallet := newAddress }
  else .error .NotOwner

/-- Contract `changeFloorPricePerToken` (owner only). -/
def changeFloorPricePerToken (s : CCState) (sender : Addr) (newPrice : Nat) :
    Except Err CCState :=
  if sender = s.owner then
    .ok { s with FloorPricePerToken := newPrice }
  else .error .NotOwner

/-- Contract `logSmartMeterData`: a registered device records energy
production for `(producer, timestamp)`; the slot must currently read
zero. -/
def logSmartMeterData (s : CCState) (sender producer : Addr)
    (timestamp energyProduced : Nat) : Except Err CCState :=
  if s.registeredDevices sender then
    if energyProduced = 0 then .error .InvalidAmount
    else if s.smartMeterData producer timestamp = 0 then
      .ok { s with smartMeterData := fun p t =>
        if p = producer ∧ t = timestamp then energyProduced
        else s.smartMeterData p t }
    else .error .DuplicateAttestation
  else .error .DeviceNotRegistered

/-- Contract `earnCarbonCredit`: the caller converts part of the recorded
energy at `timestamp` into minted credits
(`energyProduced * 1e18 / ENERGY_TO_CREDIT_CONVERSION`). -/
def earnCarbonCredit (s : CCState) (sender : Addr) (energyProduced timestamp : Nat) :
    Except Err (CCState × Nat) :=
  if energyProduced = 0 then .error .InvalidAmount
  else
    if s.smartMeterData sender timestamp = 0 then .error .NoAttestation
    else if s.smartMeterData sender timestamp < energyProduced then
      .error .ClaimExceedsAttested
    else if energyProduced * SCALE < MAXU then
      if s.ENERGY_TO_CREDIT_CONVERSION = 0 then .error .DivByZero
      else if energyProduced * SCALE / s.ENERGY_TO_CREDIT_CONVERSION = 0 then
        .error .BelowMintingThreshold
      else
        match erc20Mint
            { s with smartMeterData := fun p t =>
              if p = sender ∧ t = timestamp then
                s.smartMeterData sender timestamp - energyProduced
              else s.smartMeterData p t }
            sender (energyProduced * SCALE / s.ENERGY_TO_CREDIT_CONVERSION) with
        | .ok s2 => .ok (s2, energyProduced * SCALE / s.ENERGY_TO_CREDIT_CONVERSION)
        | .error e => .error e
    else .error .Overflow

/-- Contract `placeSellOrder`: floor-price, balance and allowance checks,
then append the order and return its index. -/
def placeSellOrder (s : CCState) (sender : Addr) (amountToSell pricePerToken : Nat) :
    Except Err (CCState × Nat) :=
  if pricePerToken < s.FloorPricePerToken then .error .PriceBelowFloor
  else if balanceOf s sender < amountToSell then .error .InsufficientBalance
  else if s.allowances sender s.contractAddr < amountToSell then
    .error .InsufficientAllowance
  else
    let newOrder : SellOrder := ⟨sender, amountToSell, pricePerToken, false⟩
    .ok ({ s with sellOrders := s.sellOrders ++ [newOrder] },
         (s.sellOrders ++ [newOrder]).length - 1)

/-- Contract `fulfillSellOrder`: validate, compute the exact price
`amountToBuy * pricePerToken / 1e18`, mutate the order, transfer the
credits, then forward the payment to the seller (whole call reverts if
forwarding fails). -/
def fulfillSellOrder (s : CCState) (sender : Addr) (msgValue orderId amountToBuy : Nat) :
    Except Err (CCState × Bool) :=
  match s.sellOrders[orderId]? with
  | none => .error .InvalidOrderId
  | some order =>
    if order.fulfilled then .error .OrderAlreadyFulfilled
    else if 0 < amountToBuy ∧ amountToBuy ≤ order.amount then
      if amountToBuy * order.pricePerToken < MAXU then
        if msgValue ≠ amountToBuy * order.pricePerToken / SCALE then
          .error .IncorrectPayment
        else if bget s.balances order.seller < amountToBuy then
          .error .SellerUnderfunded
        else
          let order2 : SellOrder :=
            { order with amount := order.amount - amountToBuy
                         fulfilled := if order.amount - amountToBuy = 0
                                      then true else order.fulfilled }
          let s1 := { s with sellOrders := s.sellOrders.set orderId order2 }
          match erc20TransferInternal s1 order.seller sender amountToBuy with
          | .error e => .error e
          | .ok s2 =>
            if s2.canReceive order.seller then .ok (s2, true)
            else .error .PaymentFailed
      else .error .Overflow
    else .error .InvalidPurchaseAmount

/-- First pass of `fulfillBatchOrders`: validate every entry
`(orderId, amountToBuy, pricePerToken)` against the untouched order book
and accumulate the total cost.  Checked arithmetic on the cost. -/
def batchPass1 (s : CCState) : List (Nat × Nat × Nat) → Nat → Except Err Nat
  | [], acc => .ok acc
  | en :: rest, acc =>
    match s.sellOrders[en.1]? with
    | none => .error .InvalidOrderId
    | some order =>
      if order.fulfilled then .error .OrderAlreadyFulfilled
      else if 0 < en.2.1 ∧ en.2.1 ≤ order.amount then
        if en.2.2 = order.pricePerToken then
          if en.2.1 * en.2.2 < MAXU then
            if acc + en.2.1 * en.2.2 / SCALE < MAXU then
              batchPass1 s rest (acc + en.2.1 * en.2.2 / SCALE)
            else .error .Overflow
          else .error .Overflow
        else .error .PriceMismatch
      else .error .InvalidPurchaseAmount

/-- Second pass of `fulfillBatchOrders`: decrement each touched order
sequentially; the checked subtraction can panic when an order id repeats
inside the batch. -/
def batchPass2 : List SellOrder → List (Nat × Nat × Nat) → Except Err (List SellOrder)
  | orders, [] => .ok orders
  | orders, en :: rest =>
    match orders[en.1]? with
    | none => .error .InvalidOrderId
    | some order =>
      if en.2.1 ≤ order.amount then
        let order2 : SellOrder :=
          { order with amount := order.amount - en.2.1
                       fulfilled := if order.amount - en.2.1 = 0
                                    then true else order.fulfilled }
        batchPass2 (orders.set en.1 order2) rest
      else .error .Underflow

/-- Third pass of `fulfillBatchOrders`: move the credits and forward each
per-order payment; a single forwarding failure aborts the whole call. -/
def batchPass3 (sender : Addr) : CCState → List (Nat × Nat × Nat) → Except Err CCState
  | s, [] => .ok s
  | s, en :: rest =>
    match s.sellOrders[en.1]? with
    | none => .error .InvalidOrderId
    | some order =>
      if en.2.1 * en.2.2 < MAXU then
        match erc20TransferInternal s order.seller sender en.2.1 with
        | .error e => .error e
        | .ok s2 =>
          if s2.canReceive order.seller then batchPass3 sender s2 rest
          else .error .PaymentFailed
      else .error .Overflow

/-- Contract `fulfillBatchOrders`: length checks, then the three passes,
with the exact-total-payment check between pass 1 and pass 2. -/
def fulfillBatchOrders (s : CCState) (sender : Addr) (msgValue : Nat)
    (orderIds amountsToBuy pricesPerToken : List Nat) : Except Err CCState :=
  if orderIds.length = 0 then .error .EmptyBatch
  else if orderIds.length ≠ amountsToBuy.length then .error .LengthMismatch
  else if orderIds.length ≠ pricesPerToken.length then .error .LengthMismatch
  else
    match batchPass1 s (orderIds.zip (amountsToBuy.zip pricesPerToken)) 0 with
    | .error e => .error e
    | .ok totalCost =>
      if totalCost ≠ msgValue then .error .IncorrectPayment
      else
        match batchPass2 s.sellOrders (orderIds.zip (amountsToBuy.zip pricesPerToken)) with
        | .error e => .error e
        | .ok orders2 =>
          batchPass3 sender { s with sellOrders := orders2 }
            (orderIds.zip (amountsToBuy.zip pricesPerToken))

/-- Contract `OwnerburnCredits` (owner only, non-empty reason). -/
def OwnerburnCredits (s : CCState) (sender account : Addr) (amount : Nat)
    (reason : String) : Except Err CCState :=
  if sender = s.owner then
    if reason.length = 0 then .error .ReasonRequired
    else erc20Burn s account amount
  else .error .NotOwner

/-- Contract `UtilizeCarbonCredit`: a holder burns part of their own
balance.  Requires a strictly positive amount and a sufficient balance. -/
def UtilizeCarbonCredit (s : CCState) (sender : Addr) (amt : Nat) : Except Err CCState :=
  if amt = 0 then .error .InvalidAmount
  else if balanceOf s sender < amt then .error .InsufficientBalance
  else erc20Burn s sender amt

/-- Contract `mintCCT` (owner only, non-zero recipient). -/
def mintCCT (s : CCState) (sender account : Addr) (amount : Nat) : Except Err CCState :=
  if sender = s.owner then
    if account = 0 then .error .InvalidRecipient
    else erc20Mint s account amount
  else .error .NotOwner

/-- One public operation of the contract, tagged with its caller (and
`msg.value` for the payable entry points). -/
inductive Op where
  | registerDevice (sender device : Addr)
  | deregisterDevice (sender device : Addr)
  | changeEnergyToCreditRate (sender : Addr) (newRate : Nat)
  | changeGovtWallet (sender : Addr) (newAddress : Addr)
  | changeFloorPricePerToken (sender : Addr) (newPrice : Nat)
  | logSmartMeterData (sender producer : Addr) (timestamp energyProduced : Nat)
  | earnCarbonCredit (sender : Addr) (energyProduced timestamp : Nat)
  | placeSellOrder (sender : Addr) (amountToSell pricePerToken : Nat)
  | fulfillSellOrder (sender : Addr) (msgValue orderId amountToBuy : Nat)
  | fulfillBatchOrders (sender : Addr) (msgValue : Nat)
      (orderIds amountsToBuy pricesPerToken : List Nat)
  | transfer (sender dst : Addr) (value : Nat)
  | approve (sender spender : Addr) (value : Nat)
  | OwnerburnCredits (sender account : Addr) (amount : Nat) (reason : String)
  | UtilizeCarbonCredit (sender : Addr) (amt : Nat)
  | mintCCT (sender account : Addr) (amount : Nat)

/-- Execute one operation, dropping function return values. -/
def exec (s : CCState) : Op → Except Err CCState
  | .registerDevice sender device => registerDevice s sender device
  | .deregisterDevice sender device => deregisterDevice s sender device
  | .changeEnergyToCreditRate sender newRate => changeEnergyToCreditRate s sender newRate
  | .changeGovtWallet sender a => changeGovtWallet s sender a
  | .changeFloorPricePerToken sender p => changeFloorPricePerToken s sender p
  | .logSmartMeterData sender producer t e => logSmartMeterData s sender producer t e
  | .earnCarbonCredit sender e t =>
    match earnCarbonCredit s sender e t with
    | .ok (s2, _) => .ok s2
    | .error e2 => .error e2
  | .placeSellOrder sender amt price =>
    match placeSellOrder s sender amt price with
    | .ok (s2, _) => .ok s2
    | .error e2 => .error e2
  | .fulfillSellOrder sender v oid amt =>
    match fulfillSellOrder s sender v oid amt with
    | .ok (s2, _) => .ok s2
    | .error e2 => .error e2
  | .fulfillBatchOrders sender v ids amts prices =>
    fulfillBatchOrders s sender v ids amts prices
  | .transfer sender dst v => transfer s sender dst v
  | .approve sender spender v => approve s sender spender v
  | .OwnerburnCredits sender account amount reason =>
    OwnerburnCredits s sender account amount reason
  | .UtilizeCarbonCredit sender amt => UtilizeCarbonCredit s sender amt
  | .mintCCT sender account amount => mintCCT s sender account amount

/-- Transaction semantics: a failed call reverts, leaving the pre-call
state. -/
def step (s : CCState) (op : Op) : CCState :=
  match exec s op with
  | .ok s2 => s2
  | .error _ => s

/-- Run a sequence of operations under revert semantics. -/
def run (s : CCState) (ops : List Op) : CCState := ops.foldl step s

/-- State right after deployment: the constructor sets the deployer as
owner; storage starts at the declared initial values (conversion 100,
floor price 1e7 wei) with empty mappings and an empty order book. -/
def initState (deployer caddr : Addr) (canR : Addr → Bool) : CCState :=
  { owner := deployer
    contractAddr := caddr
    ENERGY_TO_CREDIT_CONVERSION := 100
    GovtWallet := 0x0AfA610B923e7CF8DD4F0e929b5f0cd91C1A4d9e
    FloorPricePerToken := 10 ^ 7
    registeredDevices := fun _ => false
    smartMeterData := fun _ _ => 0
    sellOrders := []
    balances := []
    allowances := fun _ _ => 0
    totalSupply := 0
    canReceive := canR
    totalMinted := 0
    totalBurned := 0 }

/-! ## Basic lemmas about the balance table and the step semantics -/

theorem bget_bset_self (b : List (Addr × Nat)) (a : Addr) (v : Nat) :
    bget (bset b a v) a = v := by
  induction b with
  | nil => simp [bget, bset]
  | cons hd tl ih =>
    by_cases h : hd.1 = a
    · simp [bget, bset, h]
    · simp [bget, bset, h, ih]

theorem bget_bset_ne (b : List (Addr × Nat)) (a c : Addr) (v : Nat) (h : c ≠ a) :
    bget (bset b a v) c = bget b c := by
  have hac : a ≠ c := Ne.symm h
  induction b with
  | nil => simp [bget, bset, hac]
  | cons hd tl ih =>
    by_cases h1 : hd.1 = a
    · simp [bget, bset, h1, hac]
    · by_cases h2 : hd.1 = c
      · simp [bget, bset, h1, h2, h, ih]
      · simp [bget, bset, h1, h2, ih]

theorem bsum_bset (b : List (Addr × Nat)) (a : Addr) (v : Nat) :
    bsum (bset b a v) + bget b a = bsum b + v := by
  induction b with
  | nil => simp [bget, bset, bsum]
  | cons hd tl ih =>
    by_cases h : hd.1 = a
    · simp [bget, bset, bsum, h]
      omega
    · simp [bget, bset, bsum, h]
      omega

theorem bget_le_bsum (b : List (Addr × Nat)) (a : Addr) : bget b a ≤ bsum b := by
  induction b with
  | nil => simp [bget, bsum]
  | cons hd tl ih =>
    by_cases h : hd.1 = a
    · simp [bget, bsum, h]
    · simp [bget, bsum, h]
      omega

theorem step_of_error {s : CCState} {op : Op} {e : Err}
    (h : exec s op = .error e) : step s op = s := by
  simp [step, h]

theorem step_of_ok {s s2 : CCState} {op : Op}
    (h : exec s op = .ok s2) : step s op = s2 := by
  simp [step, h]

/-- States that agree on everything except the ledger fields (balances,
supply and the ghost mint/burn accumulators): the frame of every ERC20
balance operation. -/
def LedgerOnly (s s2 : CCState) : Prop :=
  s2.owner = s.owner ∧ s2.contractAddr = s.contractAddr ∧
  s2.ENERGY_TO_CREDIT_CONVERSION = s.ENERGY_TO_CREDIT_CONVERSION ∧
  s2.GovtWallet = s.GovtWallet ∧ s2.FloorPricePerToken = s.FloorPricePerToken ∧
  s2.registeredDevices = s.registeredDevices ∧
  s2.smartMeterData = s.smartMeterData ∧ s2.sellOrders = s.sellOrders ∧
  s2.allowances = s.allowances ∧ s2.canReceive = s.canReceive

theorem ledgerOnly_refl (s : CCState) : LedgerOnly s s := by
  simp [LedgerOnly]

theorem ledgerOnly_trans {s s2 s3 : CCState}
    (h1 : LedgerOnly s s2) (h2 : LedgerOnly s2 s3) : LedgerOnly s s3 := by
  obtain ⟨a1, b1, c1, d1, e1, f1, g1, h1o, i1, j1⟩ := h1
  obtain ⟨a2, b2, c2, d2, e2, f2, g2, h2o, i2, j2⟩ := h2
  exact ⟨a2.trans a1, b2.trans b1, c2.trans c1, d2.trans d1, e2.trans e1,
         f2.trans f1, g2.trans g1, h2o.trans h1o, i2.trans i1, j2.trans j1⟩

theorem erc20Update_frame {s s2 : CCState} {src dst : Addr} {v : Nat}
    (h : erc20Update s src dst v = .ok s2) : LedgerOnly s s2 := by
  unfold erc20Update erc20UpdateTo at h
  split_ifs at h
  all_goals simp only [Except.ok.injEq] at h
  all_goals subst h
  all_goals simp [LedgerOnly]

theorem erc20Mint_frame {s s2 : CCState} {dst : Addr} {v : Nat}
    (h : erc20Mint s dst v = .ok s2) : LedgerOnly s s2 := by
  unfold erc20Mint at h
  split_ifs at h
  exact erc20Update_frame h

theorem erc20Burn_frame {s s2 : CCState} {src : Addr} {v : Nat}
    (h : erc20Burn s src v = .ok s2) : LedgerOnly s s2 := by
  unfold erc20Burn at h
  split_ifs at h
  exact erc20Update_frame h

theorem erc20TransferInternal_frame {s s2 : CCState} {src dst : Addr} {v : Nat}
    (h : erc20TransferInternal s src dst v = .ok s2) : LedgerOnly s s2 := by
  unfold erc20TransferInternal at h
  split_ifs at h
  exact erc20Update_frame h

theorem batchPass3_frame {sender : Addr} :
    ∀ {l : List (Nat × Nat × Nat)} {s s2 : CCState},
      batchPass3 sender s l = .ok s2 → LedgerOnly s s2 := by
  intro l
  induction l with
  | nil =>
    intro s s2 h
    simp only [batchPass3, Except.ok.injEq] at h
    subst h
    exact ledgerOnly_refl s
  | cons en rest ih =>
    intro s s2 h
    simp only [batchPass3] at h
    cases hg : s.sellOrders[en.1]? with
    | none => simp [hg] at h
    | some order =>
      simp only [hg] at h
      split_ifs at h
      cases ht : erc20TransferInternal s order.seller sender en.2.1 with
      | error e => simp [ht] at h
      | ok s3 =>
        simp only [ht] at h
        split_ifs at h
        have h1 : LedgerOnly s s3 := erc20TransferInternal_frame ht
        exact ledgerOnly_trans h1 (ih h)

theorem logSmartMeterData_ok {s s2 : CCState} {sender producer : Addr} {ts e : Nat}
    (h : logSmartMeterData s sender producer ts e = .ok s2) :
    s.smartMeterData producer ts = 0 ∧
    s2.smartMeterData = fun p t =>
      if p = producer ∧ t = ts then e else s.smartMeterData p t := by
  unfold logSmartMeterData at h
  split_ifs at h with h1 h2 h3
  simp only [Except.ok.injEq] at h
  subst h
  exact ⟨h3, rfl⟩

theorem placeSellOrder_ok_char {s s2 : CCState} {sender : Addr} {a pr oid : Nat}
    (h : placeSellOrder s sender a pr = .ok (s2, oid)) :
    s2 = { s with sellOrders := s.sellOrders ++ [⟨sender, a, pr, false⟩] } ∧
    oid = s.sellOrders.length := by
  unfold placeSellOrder at h
  split_ifs at h
  simp only [Except.ok.injEq, Prod.mk.injEq] at h
  obtain ⟨hs, ho⟩ := h
  refine ⟨hs.symm, ?_⟩
  simp at ho
  omega

theorem earnCarbonCredit_ok_meter {s s2 : CCState} {sender : Addr} {e t c : Nat}
    (h : earnCarbonCredit s sender e t = .ok (s2, c)) :
    ∀ p t2, s2.smartMeterData p t2 ≤ s.smartMeterData p t2 := by
  unfold earnCarbonCredit at h
  split_ifs at h
  split at h
  · rename_i s3 heq
    simp only [Except.ok.injEq, Prod.mk.injEq] at h
    obtain ⟨hs3, hc⟩ := h
    subst hs3
    have hf := erc20Mint_frame heq
    intro p t2
    rw [hf.2.2.2.2.2.2.1]
    by_cases hp : p = sender ∧ t2 = t
    · obtain ⟨hp1, hp2⟩ := hp
      subst hp1; subst hp2
      simp
    · simp [hp]
  · rename_i e2 heq
    simp at h

theorem fulfillSellOrder_ok_meter {s s2 : CCState} {sender : Addr} {v oid amt : Nat}
    {b : Bool} (h : fulfillSellOrder s sender v oid amt = .ok (s2, b)) :
    s2.smartMeterData = s.smartMeterData := by
  unfold fulfillSellOrder at h
  cases hg : s.sellOrders[oid]? with
  | none => simp [hg] at h
  | some order =>
    simp only [hg] at h
    split_ifs at h
    all_goals split at h
    all_goals
      first
        | (rename_i e2 heq
           simp at h)
        | (rename_i s3 heq
           split_ifs at h
           simp only [Except.ok.injEq, Prod.mk.injEq] at h
           obtain ⟨hs3, hb⟩ := h
           subst hs3
           exact (erc20TransferInternal_frame heq).2.2.2.2.2.2.1)

theorem fulfillBatchOrders_ok_shape {s s2 : CCState} {sender : Addr} {v : Nat}
    {ids amts prices : List Nat}
    (h : fulfillBatchOrders s sender v ids amts prices = .ok s2) :
    ∃ orders2, batchPass2 s.sellOrders (ids.zip (amts.zip prices)) = .ok orders2 ∧
      batchPass3 sender { s with sellOrders := orders2 }
        (ids.zip (amts.zip prices)) = .ok s2 ∧
      ∃ T, batchPass1 s (ids.zip (amts.zip prices)) 0 = .ok T ∧ T = v := by
  unfold fulfillBatchOrders at h
  split_ifs at h
  split at h
  · rename_i e2 he
    simp at h
  · rename_i T h1
    split_ifs at h with hT
    split at h
    · rename_i e2 he
      simp at h
    · rename_i orders2 h2
      exact ⟨orders2, h2, h, T, h1, not_ne_iff.mp hT⟩

/-! ## Shared concrete scenario states for witnesses -/

/-- Deployment by owner `1` at contract address `100`; every address
accepts value transfers. -/
def demoAll : CCState := initState 1 100 (fun _ => true)

/-- A market with two sellers (`4` and `5`) holding 100 credits each,
both having approved the contract, and two open orders
(50 @ 1e18 wei and 50 @ 2e18 wei); address `5` rejects value
transfers. -/
def demoMarket : CCState :=
  run (initState 1 100 (fun a => decide (a ≠ 5)))
    [.mintCCT 1 4 100, .mintCCT 1 5 100, .approve 4 100 100, .approve 5 100 100,
     .placeSellOrder 4 50 (10 ^ 18), .placeSellOrder 5 50 (2 * 10 ^ 18)]

/-! ## Claim theorems -/

/-- C5: placeSellOrder fails PriceBelowFloor iff the price is below the
floor, fails InsufficientBalance iff (the floor check passing) the
balance of the seller is below the amount, fails InsufficientAllowance
iff (the earlier checks passing) the allowance granted to the contract
is below the amount; otherwise it appends the new order with
fulfilled = false and returns the dense id (the new length minus one,
that is the old length), leaving prior orders unchanged. -/
theorem claim5_placeSellOrder (s : CCState) (sender : Addr) (amount price : Nat) :
    (placeSellOrder s sender amount price = .error .PriceBelowFloor ↔
       price < s.FloorPricePerToken) ∧
    (s.FloorPricePerToken ≤ price →
      (placeSellOrder s sender amount price = .error .InsufficientBalance ↔
        balanceOf s sender < amount)) ∧
    (s.FloorPricePerToken ≤ price → amount ≤ balanceOf s sender →
      (placeSellOrder s sender amount price = .error .InsufficientAllowance ↔
        s.allowances sender s.contractAddr < amount)) ∧
    (s.FloorPricePerToken ≤ price → amount ≤ balanceOf s sender →
      amount ≤ s.allowances sender s.contractAddr →
      placeSellOrder s sender amount price =
        .ok ({ s with sellOrders :=
                 s.sellOrders ++ [⟨sender, amount, price, false⟩] },
             s.sellOrders.length)) := by
  refine ⟨?_, ?_, ?_, ?_⟩
  · constructor
    · intro h
      by_contra hlt
      simp only [placeSellOrder, if_neg hlt] at h
      split_ifs at h
      all_goals simp_all
    · intro h
      simp [placeSellOrder, h]
  · intro hf
    have h1 : ¬ price < s.FloorPricePerToken := by omega
    constructor
    · intro h
      by_contra hlt
      simp only [placeSellOrder, if_neg h1, if_neg hlt] at h
      split_ifs at h
      all_goals simp_all
    · intro h
      simp [placeSellOrder, h1, h]
  · intro hf hb
    have h1 : ¬ price < s.FloorPricePerToken := by omega
    have h2 : ¬ balanceOf s sender < amount := by omega
    constructor
    · intro h
      by_contra hlt
      simp only [placeSellOrder, if_neg h1, if_neg h2, if_neg hlt] at h
      simp_all
    · intro h
      simp [placeSellOrder, h1, h2, h]
  · intro hf hb ha
    have h1 : ¬ price < s.FloorPricePerToken := by omega
    have h2 : ¬ balanceOf s sender < amount := by omega
    have h3 : ¬ s.allowances sender s.contractAddr < amount := by omega
    simp [placeSellOrder, h1, h2, h3]

/-- C5 witness: on the demo market, seller 4 places 30 credits at the
floor price and gets dense id 2 back. -/
theorem claim5_witness :
    demoMarket.FloorPricePerToken ≤ 10 ^ 7 ∧
    (30 ≤ balanceOf demoMarket 4 ∧ 30 ≤ demoMarket.allowances 4 demoMarket.contractAddr) ∧
    placeSellOrder demoMarket 4 30 (10 ^ 7) =
      .ok ({ demoMarket with sellOrders :=
               demoMarket.sellOrders ++ [⟨4, 30, 10 ^ 7, false⟩] },
           demoMarket.sellOrders.length) :=
  ⟨by decide, ⟨by decide, by decide⟩,
   (claim5_placeSellOrder demoMarket 4 30 (10 ^ 7)).2.2.2
     (by decide) (by decide) (by decide)⟩

/-- C7 counterexample: the claim says any amount not exceeding the
balance succeeds and only InsufficientBalance restricts the call, but
`UtilizeCarbonCredit` also rejects a zero amount: with balance 100 and
amount 0 the call fails with InvalidAmount. -/
theorem claim7_counterexample :
    balanceOf demoMarket 4 = 100 ∧
    (0 : Nat) ≤ balanceOf demoMarket 4 ∧
    UtilizeCarbonCredit demoMarket 4 0 = .error .InvalidAmount ∧
    Err.InvalidAmount ≠ Err.InsufficientBalance :=
  ⟨by decide, by decide, by rfl, by decide⟩

/-- C7 amended: for a non-zero caller, `UtilizeCarbonCredit` fails
InvalidAmount on a zero amount; for a positive amount it fails
InsufficientBalance exactly when the balance of the caller is below the
amount, and otherwise succeeds, decreasing the balance of the caller and
the total supply by exactly the amount and touching no other balance. -/
theorem claim7_selfBurn (s : CCState) (sender : Addr) (amt : Nat) (hs : sender ≠ 0) :
    (amt = 0 → UtilizeCarbonCredit s sender amt = .error .InvalidAmount) ∧
    (0 < amt → (UtilizeCarbonCredit s sender amt = .error .InsufficientBalance ↔
       balanceOf s sender < amt)) ∧
    (0 < amt → amt ≤ balanceOf s sender →
      ∃ s2, UtilizeCarbonCredit s sender amt = .ok s2 ∧
        balanceOf s2 sender = balanceOf s sender - amt ∧
        s2.totalSupply = s.totalSupply - amt ∧
        (∀ a, a ≠ sender → balanceOf s2 a = balanceOf s a)) := by
  refine ⟨?_, ?_, ?_⟩
  · intro h
    simp [UtilizeCarbonCredit, h]
  · intro hpos
    have h0 : ¬ amt = 0 := by omega
    constructor
    · intro h
      by_contra hge
      have hge2 : ¬ bget s.balances sender < amt := hge
      simp [UtilizeCarbonCredit, h0, hge, erc20Burn, hs, erc20Update, erc20UpdateTo,
            hge2] at h
    · intro h
      simp [UtilizeCarbonCredit, h0, h]
  · intro hpos hle
    have h0 : ¬ amt = 0 := by omega
    have hb : ¬ balanceOf s sender < amt := by omega
    have hb2 : ¬ bget s.balances sender < amt := hb
    refine ⟨{ s with balances := bset s.balances sender (bget s.balances sender - amt)
                     totalSupply := s.totalSupply - amt
                     totalBurned := s.totalBurned + amt }, ?_, ?_, ?_, ?_⟩
    · simp [UtilizeCarbonCredit, h0, hb, erc20Burn, hs, erc20Update, erc20UpdateTo, hb2]
    · simp [balanceOf, bget_bset_self]
    · rfl
    · intro a ha
      simp [balanceOf, bget_bset_ne _ _ _ _ ha]

/-- C7 witness: seller 4 of the demo market burns 60 of its 100 credits. -/
theorem claim7_witness :
    (4 : Addr) ≠ 0 ∧ (0 : Nat) < 60 ∧ 60 ≤ balanceOf demoMarket 4 ∧
    (∃ s2, UtilizeCarbonCredit demoMarket 4 60 = .ok s2 ∧
      balanceOf s2 4 = balanceOf demoMarket 4 - 60 ∧
      s2.totalSupply = demoMarket.totalSupply - 60 ∧
      (∀ a, a ≠ 4 → balanceOf s2 a = balanceOf demoMarket a)) :=
  ⟨by decide, by decide, by decide,
   (claim7_selfBurn demoMarket 4 60 (by decide)).2.2 (by decide) (by decide)⟩

/-- C3: with a valid open order and a valid purchase amount (and the
price product representable in uint256), `fulfillSellOrder` succeeds
only when the payment equals `amountToBuy * pricePerToken / 1e18`
exactly; any other payment (in particular one unit above or below)
fails IncorrectPayment and leaves the state unchanged. -/
theorem claim3_exact_payment (s : CCState) (sender : Addr) (v oid amt : Nat)
    (order : SellOrder) (hord : s.sellOrders[oid]? = some order)
    (hf : order.fulfilled = false) (h0 : 0 < amt) (hle : amt ≤ order.amount)
    (hov : amt * order.pricePerToken < MAXU)
    (hv : v ≠ amt * order.pricePerToken / SCALE) :
    fulfillSellOrder s sender v oid amt = .error .IncorrectPayment ∧
    step s (.fulfillSellOrder sender v oid amt) = s ∧
    (∀ w r, fulfillSellOrder s sender w oid amt = .ok r →
       w = amt * order.pricePerToken / SCALE) := by
  have h1 : fulfillSellOrder s sender v oid amt = .error .IncorrectPayment := by
    simp [fulfillSellOrder, hord, hf, h0, hle, hov, hv]
  have h2 : exec s (.fulfillSellOrder sender v oid amt) = .error .IncorrectPayment := by
    simp [exec, h1]
  refine ⟨h1, step_of_error h2, ?_⟩
  intro w r hok
  by_contra hne
  have h3 : fulfillSellOrder s sender w oid amt = .error .IncorrectPayment := by
    simp [fulfillSellOrder, hord, hf, h0, hle, hov, hne]
  rw [h3] at hok
  simp at hok

/-- C3 witness: buying 10 units of order 0 (price 1e18 wei each) costs
exactly 10 wei; paying 9 wei fails IncorrectPayment with no state
change. -/
theorem claim3_witness :
    demoMarket.sellOrders[0]? = some ⟨4, 50, 10 ^ 18, false⟩ ∧
    (9 : Nat) ≠ 10 * 10 ^ 18 / SCALE ∧
    fulfillSellOrder demoMarket 6 9 0 10 = .error .IncorrectPayment ∧
    step demoMarket (.fulfillSellOrder 6 9 0 10) = demoMarket :=
  have h := claim3_exact_payment demoMarket 6 9 0 10 ⟨4, 50, 10 ^ 18, false⟩
    (by decide) (by decide) (by decide) (by decide) (by decide) (by decide)
  ⟨by decide, by decide, h.1, h.2.1⟩

/-- C4 counterexample: the claim ranges over every energyAmount, but at
energyAmount = 0 the first require of the code fails InvalidAmount, not
what the claim prescribes: here the stored meter value is 500, 0 does
not exceed it, and the computed credits 0 * 1e18 / 100 equal zero, so
the claim demands BelowMintingThreshold (and at an empty slot it would
demand NoAttestation), yet the call fails InvalidAmount. -/
theorem claim4_counterexample :
    (run demoAll [.registerDevice 1 2,
        .logSmartMeterData 2 3 7 500]).smartMeterData 3 7 = 500 ∧
    0 * SCALE / 100 = 0 ∧
    earnCarbonCredit (run demoAll [.registerDevice 1 2,
        .logSmartMeterData 2 3 7 500]) 3 0 7 = .error .InvalidAmount ∧
    Err.InvalidAmount ≠ Err.BelowMintingThreshold ∧
    Err.InvalidAmount ≠ Err.NoAttestation :=
  ⟨by decide, by decide, by rfl, by decide, by decide⟩

/-- C4 amended: `earnCarbonCredit` first requires a strictly positive
energy amount, failing InvalidAmount at zero; for positive amounts (and
a non-zero conversion parameter) it fails NoAttestation when the stored
meter value is zero, ClaimExceedsAttested when the claim exceeds the
stored value, BelowMintingThreshold when the computed credits truncate
to zero; on success it mints exactly `energyAmount * 1e18 / conversion`
credits to the caller and decrements the meter record by exactly the
energy amount; every failure leaves the state unchanged. -/
theorem claim4_claimCredits (s : CCState) (sender : Addr) (e t : Nat)
    (hr : s.ENERGY_TO_CREDIT_CONVERSION ≠ 0) :
    (e = 0 → earnCarbonCredit s sender e t = .error .InvalidAmount) ∧
    (0 < e → s.smartMeterData sender t = 0 →
       earnCarbonCredit s sender e t = .error .NoAttestation) ∧
    (0 < e → 0 < s.smartMeterData sender t → s.smartMeterData sender t < e →
       earnCarbonCredit s sender e t = .error .ClaimExceedsAttested) ∧
    (0 < e → 0 < s.smartMeterData sender t → e ≤ s.smartMeterData sender t →
       e * SCALE < MAXU → e * SCALE / s.ENERGY_TO_CREDIT_CONVERSION = 0 →
       earnCarbonCredit s sender e t = .error .BelowMintingThreshold) ∧
    (0 < e → 0 < s.smartMeterData sender t → e ≤ s.smartMeterData sender t →
       e * SCALE < MAXU → 0 < e * SCALE / s.ENERGY_TO_CREDIT_CONVERSION →
       sender ≠ 0 →
       s.totalSupply + e * SCALE / s.ENERGY_TO_CREDIT_CONVERSION < MAXU →
       ∃ s2, earnCarbonCredit s sender e t =
           .ok (s2, e * SCALE / s.ENERGY_TO_CREDIT_CONVERSION) ∧
         balanceOf s2 sender =
           balanceOf s sender + e * SCALE / s.ENERGY_TO_CREDIT_CONVERSION ∧
         s2.smartMeterData sender t = s.smartMeterData sender t - e ∧
         (∀ p t2, (p, t2) ≠ (sender, t) →
            s2.smartMeterData p t2 = s.smartMeterData p t2)) ∧
    (∀ err, earnCarbonCredit s sender e t = .error err →
       step s (.earnCarbonCredit sender e t) = s) := by
  refine ⟨?_, ?_, ?_, ?_, ?_, ?_⟩
  · intro h
    simp [earnCarbonCredit, h]
  · intro he h
    have he0 : ¬ e = 0 := by omega
    simp [earnCarbonCredit, he0, h]
  · intro he hpos hlt
    have he0 : ¬ e = 0 := by omega
    have h1 : ¬ s.smartMeterData sender t = 0 := by omega
    simp [earnCarbonCredit, he0, h1, hlt]
  · intro he hpos hle hov hz
    have he0 : ¬ e = 0 := by omega
    have h1 : ¬ s.smartMeterData sender t = 0 := by omega
    have h2 : ¬ s.smartMeterData sender t < e := by omega
    simp [earnCarbonCredit, he0, h1, h2, hov, hr, hz]
  · intro he hpos hle hov hc hs hsupply
    have he0 : ¬ e = 0 := by omega
    have h1 : ¬ s.smartMeterData sender t = 0 := by omega
    have h2 : ¬ s.smartMeterData sender t < e := by omega
    have hc0 : ¬ e * SCALE / s.ENERGY_TO_CREDIT_CONVERSION = 0 := by omega
    refine ⟨{ s with
        smartMeterData := fun p t2 =>
          if p = sender ∧ t2 = t then s.smartMeterData sender t - e
          else s.smartMeterData p t2
        totalSupply := s.totalSupply + e * SCALE / s.ENERGY_TO_CREDIT_CONVERSION
        totalMinted := s.totalMinted + e * SCALE / s.ENERGY_TO_CREDIT_CONVERSION
        balances := bset s.balances sender
          (bget s.balances sender + e * SCALE / s.ENERGY_TO_CREDIT_CONVERSION) },
      ?_, ?_, ?_, ?_⟩
    · simp [earnCarbonCredit, he0, h1, h2, hov, hr, hc0, erc20Mint, hs,
            erc20Update, erc20UpdateTo, hsupply]
    · simp [balanceOf, bget_bset_self]
    · simp
    · intro p t2 hne
      have : ¬ (p = sender ∧ t2 = t) := by
        intro hh
        exact hne (by simp [hh.1, hh.2])
      simp [this]
  · intro err h
    have h2 : exec s (.earnCarbonCredit sender e t) = .error err := by
      simp [exec, h]
    exact step_of_error h2

/-- C4 witness: the spec scenario — 500 kWh attested for producer 3 at
bucket 7, conversion 100; a claim of 300 kWh mints 3e18 credits and
leaves 200 kWh; a follow-up claim of 250 kWh fails
ClaimExceedsAttested; a claim of 0 kWh fails InvalidAmount. -/
theorem claim4_witness :
    (0 : Nat) < 300 ∧
    (run demoAll [.registerDevice 1 2, .logSmartMeterData 2 3 7 500]).smartMeterData 3 7
      = 500 ∧
    (∃ s2, earnCarbonCredit
        (run demoAll [.registerDevice 1 2, .logSmartMeterData 2 3 7 500]) 3 300 7 =
        .ok (s2, 300 * SCALE / 100) ∧
      balanceOf s2 3 = 0 + 300 * SCALE / 100 ∧
      s2.smartMeterData 3 7 = 500 - 300 ∧
      (∀ p t2, (p, t2) ≠ (3, 7) →
         s2.smartMeterData p t2 =
         (run demoAll [.registerDevice 1 2, .logSmartMeterData 2 3 7 500]).smartMeterData p t2)) ∧
    earnCarbonCredit
        (run demoAll [.registerDevice 1 2, .logSmartMeterData 2 3 7 500,
                      .earnCarbonCredit 3 300 7]) 3 250 7 =
      .error .ClaimExceedsAttested ∧
    earnCarbonCredit
        (run demoAll [.registerDevice 1 2, .logSmartMeterData 2 3 7 500]) 3 0 7 =
      .error .InvalidAmount :=
  ⟨by decide, by decide,
   (claim4_claimCredits (run demoAll [.registerDevice 1 2, .logSmartMeterData 2 3 7 500])
      3 300 7 (by decide)).2.2.2.2.1
     (by decide) (by decide) (by decide) (by decide) (by decide) (by decide) (by decide),
   ((claim4_claimCredits
      (run demoAll [.registerDevice 1 2, .logSmartMeterData 2 3 7 500,
                    .earnCarbonCredit 3 300 7])
      3 250 7 (by decide)).2.2.1 (by decide) (by decide) (by decide)),
   ((claim4_claimCredits
      (run demoAll [.registerDevice 1 2, .logSmartMeterData 2 3 7 500])
      3 0 7 (by decide)).1 (by decide))⟩

/-- C1 counterexample: after device 2 attests 100 kWh for producer 3 at
bucket 7 (a positive stored value) and the producer claims all of it,
the slot is back to zero and a second recordAttestation on the very same
(producer, bucket) key succeeds — it does not fail DuplicateAttestation —
and the stored value increases from 0 to 500. -/
theorem claim1_counterexample :
    (run demoAll [.registerDevice 1 2, .logSmartMeterData 2 3 7 100]).smartMeterData 3 7
      = 100 ∧
    (run demoAll [.registerDevice 1 2, .logSmartMeterData 2 3 7 100,
                  .earnCarbonCredit 3 100 7]).smartMeterData 3 7 = 0 ∧
    (∃ s4, logSmartMeterData
        (run demoAll [.registerDevice 1 2, .logSmartMeterData 2 3 7 100,
                      .earnCarbonCredit 3 100 7]) 2 3 7 500 = .ok s4 ∧
      s4.smartMeterData 3 7 = 500) :=
  ⟨by decide, by decide, ⟨_, by rfl, by decide⟩⟩

/-- C1 amended: while the stored meter value of a (producer, bucket) key
is positive, a recordAttestation on that key by a registered device with
a positive amount fails DuplicateAttestation, and no operation
whatsoever increases the value in one step (claims only decrement it).
Once claims exhaust the value to zero, a fresh attestation on the same
key may succeed again and store a new positive value. -/
theorem claim1_amended (s : CCState) (op : Op) (sender p : Addr) (t e : Nat)
    (hpos : 0 < s.smartMeterData p t) :
    (s.registeredDevices sender = true → 0 < e →
       logSmartMeterData s sender p t e = .error .DuplicateAttestation) ∧
    (step s op).smartMeterData p t ≤ s.smartMeterData p t := by
  constructor
  · intro hreg he
    have he0 : ¬ e = 0 := by omega
    have hnz : ¬ s.smartMeterData p t = 0 := by omega
    simp [logSmartMeterData, hreg, he0, hnz]
  · cases hex : exec s op with
    | error e2 => rw [step_of_error hex]
    | ok s2 =>
      rw [step_of_ok hex]
      cases op with
      | registerDevice sd dv =>
        simp only [exec] at hex
        unfold registerDevice at hex
        split_ifs at hex
        simp only [Except.ok.injEq] at hex
        subst hex
        exact Nat.le_refl _
      | deregisterDevice sd dv =>
        simp only [exec] at hex
        unfold deregisterDevice at hex
        split_ifs at hex
        simp only [Except.ok.injEq] at hex
        subst hex
        exact Nat.le_refl _
      | changeEnergyToCreditRate sd nr =>
        simp only [exec] at hex
        unfold changeEnergyToCreditRate at hex
        split_ifs at hex
        simp only [Except.ok.injEq] at hex
        subst hex
        exact Nat.le_refl _
      | changeGovtWallet sd na =>
        simp only [exec] at hex
        unfold changeGovtWallet at hex
        split_ifs at hex
        simp only [Except.ok.injEq] at hex
        subst hex
        exact Nat.le_refl _
      | changeFloorPricePerToken sd np =>
        simp only [exec] at hex
        unfold changeFloorPricePerToken at hex
        split_ifs at hex
        simp only [Except.ok.injEq] at hex
        subst hex
        exact Nat.le_refl _
      | logSmartMeterData sd pr ts en =>
        simp only [exec] at hex
        obtain ⟨hz, hfun⟩ := logSmartMeterData_ok hex
        rw [hfun]
        by_cases hc : p = pr ∧ t = ts
        · exfalso
          obtain ⟨hc1, hc2⟩ := hc
          subst hc1; subst hc2
          omega
        · simp [hc]
      | earnCarbonCredit sd en ts =>
        simp only [exec] at hex
        split at hex
        · rename_i s3 c heq
          simp only [Except.ok.injEq] at hex
          subst hex
          exact earnCarbonCredit_ok_meter heq p t
        · simp at hex
      | placeSellOrder sd amt pr =>
        simp only [exec] at hex
        split at hex
        · rename_i s3 oid heq
          simp only [Except.ok.injEq] at hex
          subst hex
          rw [(placeSellOrder_ok_char heq).1]
        · simp at hex
      | fulfillSellOrder sd v oid amt =>
        simp only [exec] at hex
        split at hex
        · rename_i s3 b heq
          simp only [Except.ok.injEq] at hex
          subst hex
          rw [fulfillSellOrder_ok_meter heq]
        · simp at hex
      | fulfillBatchOrders sd v ids amts prices =>
        simp only [exec] at hex
        obtain ⟨orders2, h2, h3, T, h1, hT⟩ := fulfillBatchOrders_ok_shape hex
        rw [(batchPass3_frame h3).2.2.2.2.2.2.1]
      | transfer sd dst v =>
        simp only [exec] at hex
        unfold transfer at hex
        rw [(erc20TransferInternal_frame hex).2.2.2.2.2.2.1]
      | approve sd sp v =>
        simp only [exec] at hex
        unfold approve at hex
        split_ifs at hex
        simp only [Except.ok.injEq] at hex
        subst hex
        exact Nat.le_refl _
      | OwnerburnCredits sd acc amt rsn =>
        simp only [exec] at hex
        unfold OwnerburnCredits at hex
        split_ifs at hex
        rw [(erc20Burn_frame hex).2.2.2.2.2.2.1]
      | UtilizeCarbonCredit sd amt =>
        simp only [exec] at hex
        unfold UtilizeCarbonCredit at hex
        split_ifs at hex
        rw [(erc20Burn_frame hex).2.2.2.2.2.2.1]
      | mintCCT sd acc amt =>
        simp only [exec] at hex
        unfold mintCCT at hex
        split_ifs at hex
        rw [(erc20Mint_frame hex).2.2.2.2.2.2.1]

/-- C1 amended witness: with 100 kWh stored for (3, 7), a repeated
attestation fails DuplicateAttestation and a partial claim of 40 kWh
does not increase the stored value. -/
theorem claim1_witness :
    (0 : Nat) < (run demoAll [.registerDevice 1 2,
        .logSmartMeterData 2 3 7 100]).smartMeterData 3 7 ∧
    (run demoAll [.registerDevice 1 2,
        .logSmartMeterData 2 3 7 100]).registeredDevices 2 = true ∧
    logSmartMeterData (run demoAll [.registerDevice 1 2, .logSmartMeterData 2 3 7 100])
      2 3 7 55 = .error .DuplicateAttestation ∧
    (step (run demoAll [.registerDevice 1 2, .logSmartMeterData 2 3 7 100])
        (.earnCarbonCredit 3 40 7)).smartMeterData 3 7 ≤
      (run demoAll [.registerDevice 1 2, .logSmartMeterData 2 3 7 100]).smartMeterData 3 7 :=
  have h := claim1_amended (run demoAll [.registerDevice 1 2, .logSmartMeterData 2 3 7 100])
    (.earnCarbonCredit 3 40 7) 2 3 7 55 (by decide)
  ⟨by decide, by decide, h.1 (by decide) (by decide), h.2⟩

/-- C2: any failing `fulfillSellOrder` or `fulfillBatchOrders` call
reverts, leaving the post-call state identical to the pre-call state: in
particular every order entry and every ledger balance is unchanged, so
no batch is ever partially settled. -/
theorem claim2_atomicity (s : CCState) (sender sender2 : Addr)
    (v oid amt v2 : Nat) (ids amts prices : List Nat) (e1 e2 : Err)
    (h1 : fulfillSellOrder s sender v oid amt = .error e1)
    (h2 : fulfillBatchOrders s sender2 v2 ids amts prices = .error e2) :
    step s (.fulfillSellOrder sender v oid amt) = s ∧
    step s (.fulfillBatchOrders sender2 v2 ids amts prices) = s ∧
    (∀ i : Nat, (step s (.fulfillSellOrder sender v oid amt)).sellOrders[i]? =
       s.sellOrders[i]?) ∧
    (∀ i : Nat, (step s (.fulfillBatchOrders sender2 v2 ids amts prices)).sellOrders[i]? =
       s.sellOrders[i]?) ∧
    (∀ a, balanceOf (step s (.fulfillSellOrder sender v oid amt)) a = balanceOf s a) ∧
    (∀ a, balanceOf (step s (.fulfillBatchOrders sender2 v2 ids amts prices)) a =
       balanceOf s a) := by
  have hx1 : exec s (.fulfillSellOrder sender v oid amt) = .error e1 := by
    simp [exec, h1]
  have hx2 : exec s (.fulfillBatchOrders sender2 v2 ids amts prices) = .error e2 := by
    simp [exec, h2]
  have hs1 := step_of_error hx1
  have hs2 := step_of_error hx2
  exact ⟨hs1, hs2, fun i => by rw [hs1], fun i => by rw [hs2],
         fun a => by rw [hs1], fun a => by rw [hs2]⟩

/-- C2 witness: on the demo market, an underpaid single fulfillment
fails IncorrectPayment, and a correctly paid batch of two orders whose
last seller (address 5) rejects the payment forwarding fails
PaymentFailed; both failed calls leave the state exactly as before, so
the first order of the failed batch is not settled either. -/
theorem claim2_witness :
    fulfillSellOrder demoMarket 6 7 0 10 = .error .IncorrectPayment ∧
    fulfillBatchOrders demoMarket 6 20 [0, 1] [10, 5] [10 ^ 18, 2 * 10 ^ 18] =
      .error .PaymentFailed ∧
    step demoMarket (.fulfillSellOrder 6 7 0 10) = demoMarket ∧
    step demoMarket (.fulfillBatchOrders 6 20 [0, 1] [10, 5] [10 ^ 18, 2 * 10 ^ 18]) =
      demoMarket :=
  have h := claim2_atomicity demoMarket 6 6 7 0 10 20 [0, 1] [10, 5]
    [10 ^ 18, 2 * 10 ^ 18] .IncorrectPayment .PaymentFailed (by rfl) (by rfl)
  ⟨by rfl, by rfl, h.1, h.2.1⟩

/-- A market extending the demo market with a third order sold by 4 at
the floor price 1e7 wei per credit. -/
def demoCheap : CCState := run demoMarket [.placeSellOrder 4 50 (10 ^ 7)]

/-- C10: when `buyAmount * pricePerToken < 1e18`, the integer division
truncates the total price to zero, so `fulfillSellOrder` with zero
payment succeeds and moves `buyAmount` credits from the seller to the
buyer for free. -/
theorem fulfillSellOrder_ok_full {s : CCState} {sender : Addr} {v oid amt : Nat}
    {order : SellOrder} (hord : s.sellOrders[oid]? = some order)
    (hf : order.fulfilled = false) (h0 : 0 < amt) (hle : amt ≤ order.amount)
    (hmax : amt * order.pricePerToken < MAXU)
    (hv : v = amt * order.pricePerToken / SCALE)
    (hbal : ¬ bget s.balances order.seller < amt)
    (hsz : order.seller ≠ 0) (hbz : sender ≠ 0)
    (hrecv : s.canReceive order.seller = true) :
    fulfillSellOrder s sender v oid amt = .ok
      ({ s with
          sellOrders := s.sellOrders.set oid
            { order with amount := order.amount - amt
                         fulfilled := if order.amount - amt = 0 then true
                                      else order.fulfilled }
          balances := bset
            (bset s.balances order.seller (bget s.balances order.seller - amt))
            sender
            (bget (bset s.balances order.seller
              (bget s.balances order.seller - amt)) sender + amt) }, true) := by
  subst hv
  simp only [fulfillSellOrder, hord, erc20TransferInternal, erc20Update, erc20UpdateTo]
  split_ifs
  all_goals first
    | rfl
    | simp_all

theorem claim10_free_purchase (s : CCState) (buyer : Addr) (i amt : Nat)
    (order : SellOrder) (hord : s.sellOrders[i]? = some order)
    (hf : order.fulfilled = false) (h0 : 0 < amt) (hle : amt ≤ order.amount)
    (hsmall : amt * order.pricePerToken < SCALE)
    (hbal : amt ≤ balanceOf s order.seller)
    (hsz : order.seller ≠ 0) (hbz : buyer ≠ 0) (hne : buyer ≠ order.seller)
    (hrecv : s.canReceive order.seller = true) :
    ∃ s2, fulfillSellOrder s buyer 0 i amt = .ok (s2, true) ∧
      balanceOf s2 buyer = balanceOf s buyer + amt ∧
      balanceOf s2 order.seller = balanceOf s order.seller - amt := by
  have hmax : amt * order.pricePerToken < MAXU := by
    have : SCALE < MAXU := by decide
    omega
  have htot : amt * order.pricePerToken / SCALE = 0 := Nat.div_eq_of_lt hsmall
  have hbal2 : ¬ bget s.balances order.seller < amt := by
    have : ¬ balanceOf s order.seller < amt := by omega
    exact this
  refine ⟨_, fulfillSellOrder_ok_full hord hf h0 hle hmax htot.symm hbal2 hsz hbz hrecv,
    ?_, ?_⟩
  · show bget (bset (bset s.balances order.seller
        (bget s.balances order.seller - amt)) buyer
        (bget (bset s.balances order.seller
          (bget s.balances order.seller - amt)) buyer + amt)) buyer
      = balanceOf s buyer + amt
    rw [bget_bset_self, bget_bset_ne _ _ _ _ hne]
    rfl
  · show bget (bset (bset s.balances order.seller
        (bget s.balances order.seller - amt)) buyer
        (bget (bset s.balances order.seller
          (bget s.balances order.seller - amt)) buyer + amt)) order.seller
      = balanceOf s order.seller - amt
    rw [bget_bset_ne _ _ _ _ (Ne.symm hne), bget_bset_self]
    rfl

/-- C10 witness: order 2 of the cheap market sells at 1e7 wei per
credit; buying 10 credits costs 10 * 1e7 / 1e18 = 0 wei, and the
purchase succeeds with zero payment, moving 10 credits. -/
theorem claim10_witness :
    demoCheap.sellOrders[2]? = some ⟨4, 50, 10 ^ 7, false⟩ ∧
    10 * 10 ^ 7 < SCALE ∧
    (∃ s2, fulfillSellOrder demoCheap 6 0 2 10 = .ok (s2, true) ∧
      balanceOf s2 6 = balanceOf demoCheap 6 + 10 ∧
      balanceOf s2 4 = balanceOf demoCheap 4 - 10) :=
  ⟨by decide, by decide,
   claim10_free_purchase demoCheap 6 2 10 ⟨4, 50, 10 ^ 7, false⟩
     (by decide) (by decide) (by decide) (by decide) (by decide) (by decide)
     (by decide) (by decide) (by decide) (by decide)⟩

/-! ## Batch-validation predicates and pass-1 characterization -/

/-- A batch entry `(orderId, amountToBuy, pricePerToken)` passes all
pass-1 checks except the price comparison: the order exists, is open,
the amount is valid, and the submitted price product is representable. -/
def entryBaseOk (s : CCState) (en : Nat × Nat × Nat) : Prop :=
  ∃ order, s.sellOrders[en.1]? = some order ∧ order.fulfilled = false ∧
    0 < en.2.1 ∧ en.2.1 ≤ order.amount ∧ en.2.1 * en.2.2 < MAXU

/-- The submitted price of a batch entry matches the live price of the
referenced order. -/
def entryPriceOk (s : CCState) (en : Nat × Nat × Nat) : Prop :=
  ∀ order, s.sellOrders[en.1]? = some order → en.2.2 = order.pricePerToken

/-- Cost of one batch entry, `amountToBuy * pricePerToken / 1e18`. -/
def costOf (en : Nat × Nat × Nat) : Nat := en.2.1 * en.2.2 / SCALE

/-- Accumulated cost of a batch. -/
def costSum (l : List (Nat × Nat × Nat)) : Nat := (l.map costOf).sum

theorem batchPass1_ok_of (s : CCState) :
    ∀ (l : List (Nat × Nat × Nat)) (acc : Nat),
      (∀ en ∈ l, entryBaseOk s en) → (∀ en ∈ l, entryPriceOk s en) →
      acc + costSum l < MAXU →
      batchPass1 s l acc = .ok (acc + costSum l) := by
  intro l
  induction l with
  | nil =>
    intro acc hbase hprice hbound
    simp [batchPass1, costSum]
  | cons en rest ih =>
    intro acc hbase hprice hbound
    obtain ⟨order, hord, hful, h0, hle, hmul⟩ := hbase en (by simp)
    have hpr : en.2.2 = order.pricePerToken := hprice en (by simp) order hord
    have hcost : costSum (en :: rest) = costOf en + costSum rest := by
      simp [costSum, costOf]
    have hacc : acc + costOf en < MAXU := by omega
    have hrec : (acc + costOf en) + costSum rest < MAXU := by omega
    simp only [batchPass1, hord, hful]
    rw [if_neg (by simp), if_pos ⟨h0, hle⟩, if_pos hpr, if_pos hmul,
        if_pos (show acc + en.2.1 * en.2.2 / SCALE < MAXU from hacc)]
    rw [ih (acc + en.2.1 * en.2.2 / SCALE)
      (fun e he => hbase e (by simp [he])) (fun e he => hprice e (by simp [he]))
      (show acc + en.2.1 * en.2.2 / SCALE + costSum rest < MAXU from hrec)]
    have : acc + en.2.1 * en.2.2 / SCALE + costSum rest = acc + costSum (en :: rest) := by
      simp [hcost, costOf]
      omega
    rw [this]

theorem batchPass1_priceMismatch (s : CCState) :
    ∀ (l : List (Nat × Nat × Nat)) (acc : Nat),
      (∀ en ∈ l, entryBaseOk s en) → acc + costSum l < MAXU →
      (¬ ∀ en ∈ l, entryPriceOk s en) →
      batchPass1 s l acc = .error .PriceMismatch := by
  intro l
  induction l with
  | nil =>
    intro acc hbase hbound hbad
    exact absurd (by simp) hbad
  | cons en rest ih =>
    intro acc hbase hbound hbad
    obtain ⟨order, hord, hful, h0, hle, hmul⟩ := hbase en (by simp)
    have hcost : costSum (en :: rest) = costOf en + costSum rest := by
      simp [costSum, costOf]
    by_cases hpr : en.2.2 = order.pricePerToken
    · have hbadrest : ¬ ∀ e ∈ rest, entryPriceOk s e := by
        intro hrest
        apply hbad
        intro e he
        rcases (by simpa using he : e = en ∨ e ∈ rest) with rfl | hmem
        · intro o ho
          rw [hord] at ho
          cases ho
          exact hpr
        · exact hrest e hmem
      have hacc : acc + costOf en < MAXU := by omega
      have hrec : (acc + costOf en) + costSum rest < MAXU := by omega
      simp only [batchPass1, hord, hful]
      rw [if_neg (by simp), if_pos ⟨h0, hle⟩, if_pos hpr, if_pos hmul,
          if_pos (show acc + en.2.1 * en.2.2 / SCALE < MAXU from hacc)]
      exact ih (acc + en.2.1 * en.2.2 / SCALE)
        (fun e he => hbase e (by simp [he]))
        (show acc + en.2.1 * en.2.2 / SCALE + costSum rest < MAXU from hrec)
        hbadrest
    · simp only [batchPass1, hord, hful]
      rw [if_neg (by simp), if_pos ⟨h0, hle⟩, if_neg hpr]

/-- C6: fulfillBatchOrders fails EmptyBatch on an empty id list and
LengthMismatch when the three arrays differ in length; when every entry
is otherwise valid but some submitted price differs from the live order
price it fails PriceChanged (PriceMismatch); when all entries validate
and the payment differs from the accumulated total cost it fails
IncorrectPayment; and every failure leaves the state unchanged
(validation precedes all mutation). -/
theorem claim6_batch_validation (s : CCState) (sender : Addr) (v : Nat)
    (ids amts prices : List Nat) :
    (ids = [] → fulfillBatchOrders s sender v ids amts prices = .error .EmptyBatch) ∧
    (ids ≠ [] → ids.length ≠ amts.length →
       fulfillBatchOrders s sender v ids amts prices = .error .LengthMismatch) ∧
    (ids ≠ [] → ids.length = amts.length → ids.length ≠ prices.length →
       fulfillBatchOrders s sender v ids amts prices = .error .LengthMismatch) ∧
    (ids ≠ [] → ids.length = amts.length → ids.length = prices.length →
       (∀ en ∈ ids.zip (amts.zip prices), entryBaseOk s en) →
       costSum (ids.zip (amts.zip prices)) < MAXU →
       (¬ ∀ en ∈ ids.zip (amts.zip prices), entryPriceOk s en) →
       fulfillBatchOrders s sender v ids amts prices = .error .PriceMismatch) ∧
    (ids ≠ [] → ids.length = amts.length → ids.length = prices.length →
       (∀ en ∈ ids.zip (amts.zip prices), entryBaseOk s en) →
       costSum (ids.zip (amts.zip prices)) < MAXU →
       (∀ en ∈ ids.zip (amts.zip prices), entryPriceOk s en) →
       v ≠ costSum (ids.zip (amts.zip prices)) →
       fulfillBatchOrders s sender v ids amts prices = .error .IncorrectPayment) ∧
    (∀ e, fulfillBatchOrders s sender v ids amts prices = .error e →
       step s (.fulfillBatchOrders sender v ids amts prices) = s) := by
  refine ⟨?_, ?_, ?_, ?_, ?_, ?_⟩
  · intro h
    simp [fulfillBatchOrders, h]
  · intro hne hlen
    have h0 : ¬ ids.length = 0 := by
      cases ids
      · exact absurd rfl hne
      · simp
    simp [fulfillBatchOrders, h0, hlen]
  · intro hne hlen hlen2
    have h0 : ¬ ids.length = 0 := by
      cases ids
      · exact absurd rfl hne
      · simp
    have ha : ¬ amts = [] := fun hh => h0 (by rw [hlen, hh]; rfl)
    have hap : ¬ amts.length = prices.length := fun hh => hlen2 (hlen.trans hh)
    simp [fulfillBatchOrders, h0, hlen, hlen2, ha, hap]
  · intro hne hlen hlen2 hbase hbound hbad
    have h0 : ¬ ids.length = 0 := by
      cases ids
      · exact absurd rfl hne
      · simp
    have ha : ¬ amts = [] := fun hh => h0 (by rw [hlen, hh]; rfl)
    have hap : amts.length = prices.length := by omega
    have hpn : ¬ prices = [] := fun hh => h0 (by rw [hlen2, hh]; rfl)
    have hp1 := batchPass1_priceMismatch s (ids.zip (amts.zip prices)) 0
      hbase (by omega) hbad
    simp [fulfillBatchOrders, h0, hlen, hlen2, hp1, ha, hap, hpn]
  · intro hne hlen hlen2 hbase hbound hgood hv
    have h0 : ¬ ids.length = 0 := by
      cases ids
      · exact absurd rfl hne
      · simp
    have ha : ¬ amts = [] := fun hh => h0 (by rw [hlen, hh]; rfl)
    have hap : amts.length = prices.length := by omega
    have hp1 := batchPass1_ok_of s (ids.zip (amts.zip prices)) 0
      hbase hgood (by omega)
    have hpn : ¬ prices = [] := fun hh => h0 (by rw [hlen2, hh]; rfl)
    have hv2 : 0 + costSum (ids.zip (amts.zip prices)) ≠ v := by omega
    have hcv : ¬ costSum (ids.zip (amts.zip prices)) = v := by omega
    simp [fulfillBatchOrders, h0, hlen, hlen2, hp1, hv2, ha, hap, hcv, hpn]
  · intro e h
    have h2 : exec s (.fulfillBatchOrders sender v ids amts prices) = .error e := by
      simp [exec, h]
    exact step_of_error h2

/-- C6 witness: the spec scenario — a batch over orders 0 and 1 of the
demo market with submitted prices [1e18, 3e18], the second being stale
(the live price is 2e18): the whole batch fails PriceChanged
(PriceMismatch) and the state is untouched. -/
theorem claim6_witness :
    (([0, 1] : List Nat) ≠ []) ∧
    (∀ en ∈ ([0, 1] : List Nat).zip (([10, 5] : List Nat).zip
        [10 ^ 18, 3 * 10 ^ 18]), entryBaseOk demoMarket en) ∧
    (¬ ∀ en ∈ ([0, 1] : List Nat).zip (([10, 5] : List Nat).zip
        [10 ^ 18, 3 * 10 ^ 18]), entryPriceOk demoMarket en) ∧
    fulfillBatchOrders demoMarket 6 25 [0, 1] [10, 5] [10 ^ 18, 3 * 10 ^ 18] =
      .error .PriceMismatch ∧
    step demoMarket (.fulfillBatchOrders 6 25 [0, 1] [10, 5] [10 ^ 18, 3 * 10 ^ 18]) =
      demoMarket := by
  have hbase : ∀ en ∈ ([0, 1] : List Nat).zip (([10, 5] : List Nat).zip
      [10 ^ 18, 3 * 10 ^ 18]), entryBaseOk demoMarket en := by
    intro en hen
    rcases (by simpa using hen :
        en = (0, (10, 10 ^ 18)) ∨ en = (1, (5, 3 * 10 ^ 18))) with rfl | rfl
    · exact ⟨⟨4, 50, 10 ^ 18, false⟩, by decide, by decide, by decide,
        by decide, by decide⟩
    · exact ⟨⟨5, 50, 2 * 10 ^ 18, false⟩, by decide, by decide, by decide,
        by decide, by decide⟩
  have hbad : ¬ ∀ en ∈ ([0, 1] : List Nat).zip (([10, 5] : List Nat).zip
      [10 ^ 18, 3 * 10 ^ 18]), entryPriceOk demoMarket en := by
    intro hall
    have := hall (1, (5, 3 * 10 ^ 18)) (by simp) ⟨5, 50, 2 * 10 ^ 18, false⟩ (by decide)
    exact absurd this (by decide)
  have h := claim6_batch_validation demoMarket 6 25 [0, 1] [10, 5] [10 ^ 18, 3 * 10 ^ 18]
  have herr := h.2.2.2.1 (by decide) (by decide) (by decide) hbase (by decide) hbad
  exact ⟨by decide, hbase, hbad, herr, h.2.2.2.2.2 .PriceMismatch herr⟩

/-! ## Conservation of value -/

/-- The conservation invariant: the sum of all account balances equals
cumulative minted volume minus cumulative burned volume (stated
subtraction-free over Nat). -/
def conservation (s : CCState) : Prop :=
  s.totalBurned ≤ s.totalMinted ∧
  bsum s.balances + s.totalBurned = s.totalMinted

theorem conservation_update {s s2 : CCState} {src dst : Addr} {v : Nat}
    (h : erc20Update s src dst v = .ok s2) (hc : conservation s) :
    conservation s2 := by
  obtain ⟨hc1, hc2⟩ := hc
  unfold erc20Update erc20UpdateTo at h
  split_ifs at h
  all_goals simp only [Except.ok.injEq] at h
  all_goals subst h
  · refine ⟨?_, ?_⟩
    · show s.totalBurned + v ≤ s.totalMinted + v
      omega
    · show bsum s.balances + (s.totalBurned + v) = s.totalMinted + v
      omega
  · refine ⟨?_, ?_⟩
    · show s.totalBurned ≤ s.totalMinted + v
      omega
    · show bsum (bset s.balances dst (bget s.balances dst + v)) + s.totalBurned =
        s.totalMinted + v
      have hb := bsum_bset s.balances dst (bget s.balances dst + v)
      omega
  · refine ⟨?_, ?_⟩
    · show s.totalBurned + v ≤ s.totalMinted
      have hb := bget_le_bsum s.balances src
      omega
    · show bsum (bset s.balances src (bget s.balances src - v)) +
        (s.totalBurned + v) = s.totalMinted
      have hb1 := bsum_bset s.balances src (bget s.balances src - v)
      have hb2 := bget_le_bsum s.balances src
      omega
  · refine ⟨?_, ?_⟩
    · show s.totalBurned ≤ s.totalMinted
      omega
    · show bsum (bset (bset s.balances src (bget s.balances src - v)) dst
          (bget (bset s.balances src (bget s.balances src - v)) dst + v)) +
        s.totalBurned = s.totalMinted
      have hb1 := bsum_bset s.balances src (bget s.balances src - v)
      have hb2 := bsum_bset (bset s.balances src (bget s.balances src - v)) dst
        (bget (bset s.balances src (bget s.balances src - v)) dst + v)
      have hb3 := bget_le_bsum s.balances src
      omega

theorem conservation_mint {s s2 : CCState} {dst : Addr} {v : Nat}
    (h : erc20Mint s dst v = .ok s2) (hc : conservation s) : conservation s2 := by
  unfold erc20Mint at h
  split_ifs at h
  exact conservation_update h hc

theorem conservation_burn {s s2 : CCState} {src : Addr} {v : Nat}
    (h : erc20Burn s src v = .ok s2) (hc : conservation s) : conservation s2 := by
  unfold erc20Burn at h
  split_ifs at h
  exact conservation_update h hc

theorem conservation_transferInternal {s s2 : CCState} {src dst : Addr} {v : Nat}
    (h : erc20TransferInternal s src dst v = .ok s2) (hc : conservation s) :
    conservation s2 := by
  unfold erc20TransferInternal at h
  split_ifs at h
  exact conservation_update h hc

theorem conservation_batchPass3 {sender : Addr} :
    ∀ {l : List (Nat × Nat × Nat)} {s s2 : CCState},
      batchPass3 sender s l = .ok s2 → conservation s → conservation s2 := by
  intro l
  induction l with
  | nil =>
    intro s s2 h hc
    simp only [batchPass3, Except.ok.injEq] at h
    subst h
    exact hc
  | cons en rest ih =>
    intro s s2 h hc
    simp only [batchPass3] at h
    cases hg : s.sellOrders[en.1]? with
    | none => simp [hg] at h
    | some order =>
      simp only [hg] at h
      split_ifs at h
      cases ht : erc20TransferInternal s order.seller sender en.2.1 with
      | error e => simp [ht] at h
      | ok s3 =>
        simp only [ht] at h
        split_ifs at h
        exact ih h (conservation_transferInternal ht hc)

theorem conservation_earn {s s2 : CCState} {sender : Addr} {e t c : Nat}
    (h : earnCarbonCredit s sender e t = .ok (s2, c)) (hc : conservation s) :
    conservation s2 := by
  unfold earnCarbonCredit at h
  split_ifs at h
  split at h
  · rename_i s3 heq
    simp only [Except.ok.injEq, Prod.mk.injEq] at h
    obtain ⟨hs3, hcc⟩ := h
    subst hs3
    exact conservation_mint heq hc
  · rename_i e2 heq
    simp at h

theorem conservation_fulfill {s s2 : CCState} {sender : Addr} {v oid amt : Nat}
    {b : Bool} (h : fulfillSellOrder s sender v oid amt = .ok (s2, b))
    (hc : conservation s) : conservation s2 := by
  unfold fulfillSellOrder at h
  cases hg : s.sellOrders[oid]? with
  | none => simp [hg] at h
  | some order =>
    simp only [hg] at h
    split_ifs at h
    all_goals split at h
    all_goals
      first
        | (rename_i e2 heq
           simp at h)
        | (rename_i s3 heq
           split_ifs at h
           simp only [Except.ok.injEq, Prod.mk.injEq] at h
           obtain ⟨hs3, hb⟩ := h
           subst hs3
           exact conservation_transferInternal heq hc)

/-- One-step preservation of conservation under every public operation
(with revert semantics on failure). -/
theorem conservation_step (s : CCState) (op : Op) (hc : conservation s) :
    conservation (step s op) := by
  cases hex : exec s op with
  | error e2 => rw [step_of_error hex]; exact hc
  | ok s2 =>
    rw [step_of_ok hex]
    cases op with
    | registerDevice sd dv =>
      simp only [exec] at hex
      unfold registerDevice at hex
      split_ifs at hex
      simp only [Except.ok.injEq] at hex
      subst hex
      exact hc
    | deregisterDevice sd dv =>
      simp only [exec] at hex
      unfold deregisterDevice at hex
      split_ifs at hex
      simp only [Except.ok.injEq] at hex
      subst hex
      exact hc
    | changeEnergyToCreditRate sd nr =>
      simp only [exec] at hex
      unfold changeEnergyToCreditRate at hex
      split_ifs at hex
      simp only [Except.ok.injEq] at hex
      subst hex
      exact hc
    | changeGovtWallet sd na =>
      simp only [exec] at hex
      unfold changeGovtWallet at hex
      split_ifs at hex
      simp only [Except.ok.injEq] at hex
      subst hex
      exact hc
    | changeFloorPricePerToken sd np =>
      simp only [exec] at hex
      unfold changeFloorPricePerToken at hex
      split_ifs at hex
      simp only [Except.ok.injEq] at hex
      subst hex
      exact hc
    | logSmartMeterData sd pr ts en =>
      simp only [exec] at hex
      unfold logSmartMeterData at hex
      split_ifs at hex
      simp only [Except.ok.injEq] at hex
      subst hex
      exact hc
    | earnCarbonCredit sd en ts =>
      simp only [exec] at hex
      split at hex
      · rename_i s3 c heq
        simp only [Except.ok.injEq] at hex
        subst hex
        exact conservation_earn heq hc
      · simp at hex
    | placeSellOrder sd amt pr =>
      simp only [exec] at hex
      split at hex
      · rename_i s3 oid heq
        simp only [Except.ok.injEq] at hex
        subst hex
        rw [(placeSellOrder_ok_char heq).1]
        exact hc
      · simp at hex
    | fulfillSellOrder sd v oid amt =>
      simp only [exec] at hex
      split at hex
      · rename_i s3 b heq
        simp only [Except.ok.injEq] at hex
        subst hex
        exact conservation_fulfill heq hc
      · simp at hex
    | fulfillBatchOrders sd v ids amts prices =>
      simp only [exec] at hex
      obtain ⟨orders2, h2, h3, T, h1, hT⟩ := fulfillBatchOrders_ok_shape hex
      exact conservation_batchPass3 h3 hc
    | transfer sd dst v =>
      simp only [exec] at hex
      unfold transfer at hex
      exact conservation_transferInternal hex hc
    | approve sd sp v =>
      simp only [exec] at hex
      unfold approve at hex
      split_ifs at hex
      simp only [Except.ok.injEq] at hex
      subst hex
      exact hc
    | OwnerburnCredits sd acc amt rsn =>
      simp only [exec] at hex
      unfold OwnerburnCredits at hex
      split_ifs at hex
      exact conservation_burn hex hc
    | UtilizeCarbonCredit sd amt =>
      simp only [exec] at hex
      unfold UtilizeCarbonCredit at hex
      split_ifs at hex
      exact conservation_burn hex hc
    | mintCCT sd acc amt =>
      simp only [exec] at hex
      unfold mintCCT at hex
      split_ifs at hex
      exact conservation_mint hex hc

theorem conservation_run (ops : List Op) :
    ∀ s : CCState, conservation s → conservation (run s ops) := by
  induction ops with
  | nil => intro s hc; exact hc
  | cons op rest ih =>
    intro s hc
    exact ih (step s op) (conservation_step s op hc)

/-- C8: along every operation sequence from the deployed state, the sum
of all balances equals cumulative total minted minus cumulative total
burned (stated additively over Nat); since this holds for every
sequence, it holds at every intermediate point of any run. -/
theorem claim8_conservation (deployer caddr : Addr) (canR : Addr → Bool)
    (ops : List Op) :
    (run (initState deployer caddr canR) ops).totalBurned ≤
      (run (initState deployer caddr canR) ops).totalMinted ∧
    bsum (run (initState deployer caddr canR) ops).balances +
      (run (initState deployer caddr canR) ops).totalBurned =
    (run (initState deployer caddr canR) ops).totalMinted :=
  conservation_run ops (initState deployer caddr canR) ⟨Nat.le_refl 0, rfl⟩

/-! ## Zero-amount orders are frozen forever -/

theorem getElem?_some_lt {α : Type} {l : List α} {i : Nat} {a : α}
    (h : l[i]? = some a) : i < l.length := by
  by_contra hn
  rw [List.getElem?_eq_none (by omega)] at h
  simp at h

theorem batchPass1_all_valid {s : CCState} :
    ∀ {l : List (Nat × Nat × Nat)} {acc T : Nat},
      batchPass1 s l acc = .ok T →
      ∀ en ∈ l, ∃ order, s.sellOrders[en.1]? = some order ∧
        order.fulfilled = false ∧ 0 < en.2.1 ∧ en.2.1 ≤ order.amount ∧
        en.2.2 = order.pricePerToken := by
  intro l
  induction l with
  | nil =>
    intro acc T h en hen
    simp at hen
  | cons en0 rest ih =>
    intro acc T h en hen
    simp only [batchPass1] at h
    cases hg : s.sellOrders[en0.1]? with
    | none => simp [hg] at h
    | some order =>
      simp only [hg] at h
      split_ifs at h with c1 c2 c3 c4 c5
      rcases (by simpa using hen : en = en0 ∨ en ∈ rest) with rfl | hmem
      · exact ⟨order, hg, by simpa using c1, c2.1, c2.2, c3⟩
      · exact ih h en hmem

theorem batchPass2_frozen {i : Nat} :
    ∀ {l : List (Nat × Nat × Nat)} {orders orders2 : List SellOrder},
      batchPass2 orders l = .ok orders2 → (∀ en ∈ l, en.1 ≠ i) →
      orders2[i]? = orders[i]? := by
  intro l
  induction l with
  | nil =>
    intro orders orders2 h hne
    simp only [batchPass2, Except.ok.injEq] at h
    subst h
    rfl
  | cons en rest ih =>
    intro orders orders2 h hne
    simp only [batchPass2] at h
    cases hg : orders[en.1]? with
    | none => simp [hg] at h
    | some order =>
      simp only [hg] at h
      split_ifs at h
      all_goals
        (have h1 := ih h (fun e he => hne e (by simp [he]))
         rw [h1, List.getElem?_set_ne (hne en (by simp))])

theorem fulfillSellOrder_ok_orders {s s2 : CCState} {sender : Addr} {v oid amt : Nat}
    {b : Bool} (h : fulfillSellOrder s sender v oid amt = .ok (s2, b)) :
    ∃ order, s.sellOrders[oid]? = some order ∧ 0 < amt ∧ amt ≤ order.amount ∧
      ∃ ord2, s2.sellOrders = s.sellOrders.set oid ord2 := by
  unfold fulfillSellOrder at h
  cases hg : s.sellOrders[oid]? with
  | none => simp [hg] at h
  | some order =>
    simp only [hg] at h
    split_ifs at h with c1 c2 c3 c4 c5 c6
    all_goals split at h
    all_goals
      first
        | (rename_i e2 heq
           simp at h)
        | (rename_i s3 heq
           split_ifs at h
           simp only [Except.ok.injEq, Prod.mk.injEq] at h
           obtain ⟨hs3, hb⟩ := h
           subst hs3
           exact ⟨order, rfl, c2.1, c2.2, _,
             (erc20TransferInternal_frame heq).2.2.2.2.2.2.2.1⟩)

theorem earnCarbonCredit_ok_orders {s s2 : CCState} {sender : Addr} {e t c : Nat}
    (h : earnCarbonCredit s sender e t = .ok (s2, c)) :
    s2.sellOrders = s.sellOrders := by
  unfold earnCarbonCredit at h
  split_ifs at h
  split at h
  · rename_i s3 heq
    simp only [Except.ok.injEq, Prod.mk.injEq] at h
    obtain ⟨hs3, hcc⟩ := h
    subst hs3
    exact (erc20Mint_frame heq).2.2.2.2.2.2.2.1
  · rename_i e2 heq
    simp at h

/-- One-step version: a zero-amount open order entry survives any
single public operation unchanged. -/
theorem step_zero_order_frozen (s : CCState) (op : Op) (i : Nat) (order : SellOrder)
    (hord : s.sellOrders[i]? = some order) (ham : order.amount = 0) :
    (step s op).sellOrders[i]? = some order := by
  cases hex : exec s op with
  | error e2 => rw [step_of_error hex]; exact hord
  | ok s2 =>
    rw [step_of_ok hex]
    cases op with
    | registerDevice sd dv =>
      simp only [exec] at hex
      unfold registerDevice at hex
      split_ifs at hex
      simp only [Except.ok.injEq] at hex
      subst hex
      exact hord
    | deregisterDevice sd dv =>
      simp only [exec] at hex
      unfold deregisterDevice at hex
      split_ifs at hex
      simp only [Except.ok.injEq] at hex
      subst hex
      exact hord
    | changeEnergyToCreditRate sd nr =>
      simp only [exec] at hex
      unfold changeEnergyToCreditRate at hex
      split_ifs at hex
      simp only [Except.ok.injEq] at hex
      subst hex
      exact hord
    | changeGovtWallet sd na =>
      simp only [exec] at hex
      unfold changeGovtWallet at hex
      split_ifs at hex
      simp only [Except.ok.injEq] at hex
      subst hex
      exact hord
    | changeFloorPricePerToken sd np =>
      simp only [exec] at hex
      unfold changeFloorPricePerToken at hex
      split_ifs at hex
      simp only [Except.ok.injEq] at hex
      subst hex
      exact hord
    | logSmartMeterData sd pr ts en =>
      simp only [exec] at hex
      unfold logSmartMeterData at hex
      split_ifs at hex
      simp only [Except.ok.injEq] at hex
      subst hex
      exact hord
    | earnCarbonCredit sd en ts =>
      simp only [exec] at hex
      split at hex
      · rename_i s3 c heq
        simp only [Except.ok.injEq] at hex
        subst hex
        rw [earnCarbonCredit_ok_orders heq]
        exact hord
      · simp at hex
    | placeSellOrder sd amt pr =>
      simp only [exec] at hex
      split at hex
      · rename_i s3 oid heq
        simp only [Except.ok.injEq] at hex
        subst hex
        rw [(placeSellOrder_ok_char heq).1]
        show (s.sellOrders ++ [⟨sd, amt, pr, false⟩])[i]? = some order
        rw [List.getElem?_append, if_pos (getElem?_some_lt hord)]
        exact hord
      · simp at hex
    | fulfillSellOrder sd v oid amt =>
      simp only [exec] at hex
      split at hex
      · rename_i s3 b heq
        simp only [Except.ok.injEq] at hex
        subst hex
        obtain ⟨order0, hg0, h00, hle0, ord2, hset⟩ := fulfillSellOrder_ok_orders heq
        rw [hset]
        by_cases hoi : oid = i
        · exfalso
          subst hoi
          rw [hord] at hg0
          injection hg0 with hg0
          subst hg0
          omega
        · rw [List.getElem?_set_ne hoi]
          exact hord
      · simp at hex
    | fulfillBatchOrders sd v ids amts prices =>
      simp only [exec] at hex
      obtain ⟨orders2, h2, h3, T, h1, hT⟩ := fulfillBatchOrders_ok_shape hex
      have hvalid := batchPass1_all_valid h1
      have hne : ∀ en ∈ ids.zip (amts.zip prices), en.1 ≠ i := by
        intro en hen hcontra
        obtain ⟨order0, hg0, hful0, h00, hle0, hpr0⟩ := hvalid en hen
        rw [hcontra, hord] at hg0
        injection hg0 with hg0
        subst hg0
        omega
      have h2f := batchPass2_frozen h2 hne
      rw [(batchPass3_frame h3).2.2.2.2.2.2.2.1]
      show orders2[i]? = some order
      rw [h2f]
      exact hord
    | transfer sd dst v =>
      simp only [exec] at hex
      unfold transfer at hex
      rw [(erc20TransferInternal_frame hex).2.2.2.2.2.2.2.1]
      exact hord
    | approve sd sp v =>
      simp only [exec] at hex
      unfold approve at hex
      split_ifs at hex
      simp only [Except.ok.injEq] at hex
      subst hex
      exact hord
    | OwnerburnCredits sd acc amt rsn =>
      simp only [exec] at hex
      unfold OwnerburnCredits at hex
      split_ifs at hex
      rw [(erc20Burn_frame hex).2.2.2.2.2.2.2.1]
      exact hord
    | UtilizeCarbonCredit sd amt =>
      simp only [exec] at hex
      unfold UtilizeCarbonCredit at hex
      split_ifs at hex
      rw [(erc20Burn_frame hex).2.2.2.2.2.2.2.1]
      exact hord
    | mintCCT sd acc amt =>
      simp only [exec] at hex
      unfold mintCCT at hex
      split_ifs at hex
      rw [(erc20Mint_frame hex).2.2.2.2.2.2.2.1]
      exact hord

theorem run_zero_order_frozen (ops : List Op) :
    ∀ (s : CCState) (i : Nat) (order : SellOrder),
      s.sellOrders[i]? = some order → order.amount = 0 →
      (run s ops).sellOrders[i]? = some order := by
  induction ops with
  | nil =>
    intro s i order hord _
    exact hord
  | cons op rest ih =>
    intro s i order hord ham
    exact ih (step s op) i order (step_zero_order_frozen s op i order hord ham) ham

/-- C9: placeSellOrder accepts amount 0 (the balance and allowance
checks are trivially satisfied), appending an open order with remaining
amount 0; no fulfillSellOrder call on such an order can ever succeed
(it always fails InvalidPurchaseAmount since 0 < buyAmount ≤ 0 is
unsatisfiable), and the order entry survives every subsequent operation
sequence unchanged — open and unfulfillable forever. -/
theorem claim9_zero_amount_order (s : CCState) (sender : Addr) (price : Nat)
    (i : Nat) (ops : List Op) :
    (s.FloorPricePerToken ≤ price →
       placeSellOrder s sender 0 price =
         .ok ({ s with sellOrders := s.sellOrders ++ [⟨sender, 0, price, false⟩] },
              s.sellOrders.length)) ∧
    (∀ order : SellOrder, s.sellOrders[i]? = some order → order.amount = 0 →
       order.fulfilled = false →
       (∀ buyer v amt, fulfillSellOrder s buyer v i amt =
          .error .InvalidPurchaseAmount) ∧
       (run s ops).sellOrders[i]? = some order) := by
  constructor
  · intro hfl
    have h1 : ¬ price < s.FloorPricePerToken := by omega
    simp [placeSellOrder, h1]
  · intro order hord ham hf
    constructor
    · intro buyer v amt
      have hcond : ¬ (0 < amt ∧ amt ≤ order.amount) := by omega
      simp [fulfillSellOrder, hord, hf, hcond]
    · exact run_zero_order_frozen ops s i order hord ham

/-- The demo market after seller 4 places a zero-amount order (id 2). -/
def demoZero : CCState := run demoMarket [.placeSellOrder 4 0 (10 ^ 7)]

/-- C9 witness: placing a zero-amount order on the demo market succeeds
with dense id 2; fulfilling it fails InvalidPurchaseAmount, and after a
further failed fulfillment attempt, a transfer and another order
placement, the entry still reads amount 0, fulfilled false. -/
theorem claim9_witness :
    demoMarket.FloorPricePerToken ≤ 10 ^ 7 ∧
    placeSellOrder demoMarket 4 0 (10 ^ 7) =
      .ok ({ demoMarket with
               sellOrders := demoMarket.sellOrders ++ [⟨4, 0, 10 ^ 7, false⟩] },
           demoMarket.sellOrders.length) ∧
    demoZero.sellOrders[2]? = some ⟨4, 0, 10 ^ 7, false⟩ ∧
    fulfillSellOrder demoZero 6 0 2 5 = .error .InvalidPurchaseAmount ∧
    (run demoZero [.fulfillSellOrder 6 0 2 5, .transfer 4 6 10,
        .placeSellOrder 5 20 (10 ^ 18)]).sellOrders[2]? =
      some ⟨4, 0, 10 ^ 7, false⟩ := by
  have h9a := claim9_zero_amount_order demoMarket 4 (10 ^ 7) 2 []
  have h9b := claim9_zero_amount_order demoZero 6 (10 ^ 7) 2
    [.fulfillSellOrder 6 0 2 5, .transfer 4 6 10, .placeSellOrder 5 20 (10 ^ 18)]
  have hb := h9b.2 ⟨4, 0, 10 ^ 7, false⟩ (by decide) (by decide) (by decide)
  exact ⟨by decide, h9a.1 (by decide), by decide, hb.1 6 0 5, hb.2⟩

end CCtoken
